import Mathlib

/-!
Verification of the `en-x-log-test-task` repository.

`task_1.rs` provides a small logger: `write_to_log(log_type, log_level, value)`
formats the record `"[LEVEL] message"` and sends it to one of three sinks
(console, a fixed-name file opened in append-or-create mode, or an
unimplemented network stub).  We embed it as a pure state transformer over an
explicit `World` (the contents of the fixed-name log file plus the console
output) together with an `FsEnv` that resolves the two I/O nondeterminism
points of the file branch: whether the open succeeds and whether the write
succeeds, each failure carrying the underlying I/O error description.

`task_2.rs` provides two implementations `v1::foo` / `v2::foo` of a
filter-and-enumerate transform over a vector of `T: AsRef<str>` values; we
embed vectors as lists and the trait bound as a typeclass.
-/

namespace EnxLog

/-- `LogType` from task_1.rs: the sink selector. -/
inductive LogType where
  | Console
  | FileSystem
  | Network
deriving DecidableEq, Repr

/-- `LogLevel` from task_1.rs: the severity selector. -/
inductive LogLevel where
  | Info
  | Error
  | Warn
  | Debug
deriving DecidableEq, Repr

/-- The `Display` impl for `LogLevel` in task_1.rs: each level is rendered as
its uppercase tag. -/
def LogLevel.display : LogLevel → String
  | .Info => "INFO"
  | .Error => "ERROR"
  | .Warn => "WARN"
  | .Debug => "DEBUG"

/-- `LogError` from task_1.rs.  Each variant carries the text description of
the underlying failure. -/
inductive LogError where
  | FileOpenError (s : String)
  | FileWriteError (s : String)
  | LogError (s : String)
deriving DecidableEq, Repr

/-- `DEFAULT_LOG_FILE_NAME` from task_1.rs: the fixed name of the log file.
`World.file` below models the contents of the file at this fixed path. -/
def DEFAULT_LOG_FILE_NAME : String := "log.txt"

/-- The observable state touched by `write_to_log`: the contents of the
fixed-name log file (`none` when the file does not exist) and the sequence of
lines printed to standard output. -/
structure World where
  file : Option String
  console : List String
deriving DecidableEq, Repr

/-- Resolution of the I/O nondeterminism of the file branch: `openResult`
(resp. `writeResult`) is `none` when the open (resp. the write) succeeds, and
`some e` when it fails with underlying I/O error description `e`. -/
structure FsEnv where
  openResult : Option String
  writeResult : Option String
deriving DecidableEq, Repr

/-- The result of a call: a returned Rust `Result<(), LogError>` value, or a
diverging `abort` (a Rust panic, as produced by `todo!`), which returns no
`Result` at all. -/
inductive Outcome (α : Type) where
  | ok (a : α)
  | err (e : LogError)
  | abort (msg : String)
deriving DecidableEq, Repr

/-- The record string built by `write_to_log`:
`format!("[{}] {}", log_level, value)`. -/
def log_message (log_level : LogLevel) (value : String) : String :=
  "[" ++ log_level.display ++ "] " ++ value

/-- `write_to_log` from task_1.rs as a state transformer.  Mirrors the source:
the record is formatted once; `Console` prints it (cannot fail at the
`Result` level); `FileSystem` opens the fixed-name file in append-or-create
mode (an absent file starts empty), maps an open failure to `FileOpenError`,
writes the record followed by a newline, and maps a write failure to
`FileWriteError`; `Network` hits `todo!("Requires network implementation")`,
i.e. aborts.  On the success paths the function returns `Ok(())`. -/
def write_to_log (log_type : LogType) (log_level : LogLevel) (value : String)
    (env : FsEnv) (w : World) : Outcome Unit × World :=
  let msg := log_message log_level value
  match log_type with
  | LogType.Console => (Outcome.ok (), { w with console := w.console ++ [msg] })
  | LogType.FileSystem =>
    match env.openResult with
    | some e => (Outcome.err (LogError.FileOpenError e), w)
    | none =>
      let opened := w.file.getD ""
      match env.writeResult with
      | some e => (Outcome.err (LogError.FileWriteError e), { w with file := some opened })
      | none => (Outcome.ok (), { w with file := some (opened ++ msg ++ "\n") })
  | LogType.Network =>
    (Outcome.abort "not yet implemented: Requires network implementation", w)

/-- The `T: AsRef<str>` bound of both tasks, as a typeclass. -/
class AsRefStr (α : Type) where
  as_ref : α → String

instance : AsRefStr String := ⟨id⟩

namespace v1

/-- `v1::bar` from task_2.rs: always `Some(value)`. -/
def bar (value : String) : Option String := some value

/-- `v1::foo` from task_2.rs: filter by `bar(..).is_some()`, then enumerate. -/
def foo {α : Type} [AsRefStr α] (input : List α) : List (Nat × α) :=
  (input.filter (fun value => (bar (AsRefStr.as_ref value)).isSome)).enum

end v1

namespace v2

/-- `v2::bar` from task_2.rs: always `Some(value)`, generic over the bound. -/
def bar {α : Type} [AsRefStr α] (value : α) : Option α := some value

/-- `v2::foo` from task_2.rs: `filter_map` through `bar`, then enumerate. -/
def foo {α : Type} [AsRefStr α] (input : List α) : List (Nat × α) :=
  (input.filterMap (fun val => bar val)).enum

end v2

/-- One step of newline splitting: prepend `c` to the first group. -/
def consHead (c : Char) : List (List Char) → List (List Char)
  | [] => [[c]]
  | g :: gs => (c :: g) :: gs

/-- Split a character list at newline characters.  Always returns at least
one (possibly empty) group; the groups are the newline-free segments. -/
def splitNL : List Char → List (List Char)
  | [] => [[]]
  | c :: rest =>
    if c = '\n' then [] :: splitNL rest else consHead c (splitNL rest)

/-- Merge a trailing group `g` with the first group of a following split. -/
def joinHead (g : List Char) : List (List Char) → List (List Char)
  | [] => [g]
  | h :: t => (g ++ h) :: t

/-- Glue two splits across an append point: the last group of the left split
merges with the first group of the right split. -/
def glue : List (List Char) → List (List Char) → List (List Char)
  | [], b => b
  | [g], b => joinHead g b
  | g :: g2 :: rest, b => g :: glue (g2 :: rest) b

/-- The lines of a file's contents: split at newlines, a trailing newline not
opening a final empty line (the reading convention of the repository's test,
which iterates `lines()` over the file).  `fileLines "" = []` and
`fileLines ("a" ++ "\n") = ["a"]`. -/
def fileLines (s : String) : List String :=
  let groups := splitNL s.data
  (if groups.getLast? = some [] then groups.dropLast else groups).map
    (fun g => String.mk g)

/-- A file state is line-structured when the file is absent, empty, or its
contents end with a newline — i.e. it holds only complete lines. -/
def LineStructured (f : Option String) : Prop :=
  (f.getD "").data = [] ∨ ∃ zs, (f.getD "").data = zs ++ ['\n']

end EnxLog

namespace EnxLog

theorem splitNL_ne_nil (l : List Char) : splitNL l ≠ [] := by
  induction l with
  | nil => simp [splitNL]
  | cons c rest ih =>
    simp only [splitNL]
    split
    · simp
    · cases splitNL rest <;> simp [consHead]

theorem glue_nil (b : List (List Char)) : glue [] b = b := rfl

theorem glue_single (g : List Char) (b : List (List Char)) :
    glue [g] b = joinHead g b := rfl

theorem glue_cons_cons (g g2 : List Char) (rest b : List (List Char)) :
    glue (g :: g2 :: rest) b = g :: glue (g2 :: rest) b := rfl

theorem splitNL_cons_nl (rest : List Char) :
    splitNL ('\n' :: rest) = [] :: splitNL rest := by
  simp [splitNL]

theorem splitNL_cons_other (c : Char) (rest : List Char) (h : ¬ c = '\n') :
    splitNL (c :: rest) = consHead c (splitNL rest) := by
  simp [splitNL, h]

theorem string_mk_data (s : String) : String.mk s.data = s := rfl

theorem consHead_glue (c : Char) (a b : List (List Char)) (ha : a ≠ []) :
    consHead c (glue a b) = glue (consHead c a) b := by
  match a with
  | [g] =>
    cases b with
    | nil => rfl
    | cons h t => simp [glue_single, joinHead, consHead, List.cons_append]
  | g :: g2 :: rest => rfl

theorem splitNL_append (xs ys : List Char) :
    splitNL (xs ++ ys) = glue (splitNL xs) (splitNL ys) := by
  induction xs with
  | nil =>
    obtain ⟨h, t, hs⟩ := List.exists_cons_of_ne_nil (splitNL_ne_nil ys)
    simp [splitNL, hs, glue_single, joinHead]
  | cons c rest ih =>
    by_cases h : c = '\n'
    · subst h
      obtain ⟨g, gs, hs⟩ := List.exists_cons_of_ne_nil (splitNL_ne_nil rest)
      rw [List.cons_append, splitNL_cons_nl, splitNL_cons_nl, ih, hs]
      exact (glue_cons_cons [] g gs (splitNL ys)).symm
    · rw [List.cons_append, splitNL_cons_other c _ h,
        splitNL_cons_other c _ h, ih]
      exact consHead_glue c _ _ (splitNL_ne_nil rest)

theorem glue_concat (A : List (List Char)) (g : List Char)
    (b : List (List Char)) : glue (A ++ [g]) b = A ++ joinHead g b := by
  induction A with
  | nil => rfl
  | cons a A ih =>
    cases A with
    | nil => cases b <;> simp [glue, joinHead]
    | cons a2 A2 =>
      simp only [List.cons_append] at ih ⊢
      rw [glue_cons_cons, ih]

theorem splitNL_no_newline (ms : List Char) (h : Char.ofNat 10 ∉ ms) :
    splitNL ms = [ms] := by
  induction ms with
  | nil => rfl
  | cons c rest ih =>
    simp only [List.mem_cons, not_or] at h
    have hrest := ih h.2
    have hc : ¬ c = '\n' := fun hc => h.1 (by rw [hc])
    simp [splitNL, hc, hrest, consHead]

theorem fileLines_append_line (c m : String)
    (hm : Char.ofNat 10 ∉ m.data)
    (hc : c.data = [] ∨ ∃ zs, c.data = zs ++ [Char.ofNat 10]) :
    fileLines (c ++ m ++ "\n") = fileLines c ++ [m] := by
  have hnl : ('\n' : Char) = Char.ofNat 10 := rfl
  have hdata : (c ++ m ++ "\n").data = c.data ++ (m.data ++ ['\n']) := by
    simp [String.data_append]
  have hms : splitNL (m.data ++ ['\n']) = [m.data, []] := by
    rw [splitNL_append, splitNL_no_newline m.data hm]
    simp [glue_single, splitNL, joinHead]
  rcases hc with hc | ⟨zs, hz⟩
  · have h1 : splitNL (c.data ++ (m.data ++ ['\n'])) = [m.data, []] := by
      rw [hc, List.nil_append, hms]
    have h2 : splitNL c.data = [[]] := by rw [hc]; rfl
    simp only [fileLines, hdata, h1, h2]
    rfl
  · obtain hS | ⟨A, g, hAg⟩ := List.eq_nil_or_concat (splitNL zs)
    · exact absurd hS (splitNL_ne_nil zs)
    · rw [List.concat_eq_append] at hAg
      have hzsplit : splitNL c.data = (A ++ [g]) ++ [[]] := by
        rw [hz, ← hnl, splitNL_append, hAg, glue_concat]
        simp [splitNL, joinHead]
      have hglue : glue ((A ++ [g]) ++ [[]]) [m.data, []] =
          ((A ++ [g]) ++ [m.data]) ++ [[]] := by
        rw [glue_concat]
        simp [joinHead]
      have hnew : splitNL (c.data ++ (m.data ++ ['\n'])) =
          ((A ++ [g]) ++ [m.data]) ++ [[]] := by
        rw [splitNL_append, hzsplit, hms, hglue]
      simp only [fileLines, hdata, hnew, hzsplit]
      rw [List.getLast?_concat, List.getLast?_concat, if_pos rfl, if_pos rfl,
        List.dropLast_concat, List.dropLast_concat]
      simp [string_mk_data]

/-- C7: each `LogLevel` value is rendered as its uppercase tag. -/
theorem logLevel_display_uppercase_tags :
    LogLevel.display LogLevel.Info = "INFO" ∧
    LogLevel.display LogLevel.Error = "ERROR" ∧
    LogLevel.display LogLevel.Warn = "WARN" ∧
    LogLevel.display LogLevel.Debug = "DEBUG" :=
  ⟨rfl, rfl, rfl, rfl⟩

/-- C3: the `Console` branch always returns `Ok(())`; there is no input on
which it returns an error (or aborts). -/
theorem console_always_ok (log_level : LogLevel) (value : String)
    (env : FsEnv) (w : World) :
    (write_to_log LogType.Console log_level value env w).1 = Outcome.ok () := rfl

/-- C4: the `Network` branch never returns a `Result` value: for every level,
message, environment and world it aborts (the `todo!` stub). -/
theorem network_always_aborts (log_level : LogLevel) (value : String)
    (env : FsEnv) (w : World) :
    (write_to_log LogType.Network log_level value env w).1 =
      Outcome.abort "not yet implemented: Requires network implementation" := rfl

/-- C5: the `FileSystem` branch returns `Err(FileOpenError e)` exactly when
the open fails with description `e`, and `Err(FileWriteError e)` exactly when
the open succeeds and the write fails with description `e`. -/
theorem filesystem_error_characterization (log_level : LogLevel)
    (value : String) (env : FsEnv) (w : World) (e : String) :
    ((write_to_log LogType.FileSystem log_level value env w).1 =
        Outcome.err (LogError.FileOpenError e) ↔ env.openResult = some e) ∧
    ((write_to_log LogType.FileSystem log_level value env w).1 =
        Outcome.err (LogError.FileWriteError e) ↔
      env.openResult = none ∧ env.writeResult = some e) := by
  rcases env with ⟨op, wr⟩
  cases op <;> cases wr <;> simp [write_to_log]

/-- C2: `v1::foo` and `v2::foo` compute the same transform on every input. -/
theorem foo_v1_eq_v2 {α : Type} [AsRefStr α] (input : List α) :
    v1.foo input = v2.foo input := by
  simp [v1.foo, v2.foo, v1.bar, v2.bar]

/-- C2 witness: the two implementations agree on the sample input of `run()`. -/
theorem foo_v1_eq_v2_witness :
    v1.foo ["string_0", "string_1", "string_2", ""] =
      v2.foo ["string_0", "string_1", "string_2", ""] :=
  foo_v1_eq_v2 ["string_0", "string_1", "string_2", ""]

/-- C9: neither implementation ever filters an element out: both return the
enumeration of the full input, so the output has the input's length and pairs
the i-th input element with index i. -/
theorem foo_never_filters {α : Type} [AsRefStr α] (input : List α) :
    v1.foo input = input.enum ∧
    v2.foo input = input.enum ∧
    (v1.foo input).length = input.length ∧
    ∀ i : Nat, (v1.foo input)[i]? = input[i]?.map (fun a => (i, a)) := by
  refine ⟨?_, ?_, ?_, ?_⟩
  · simp [v1.foo, v1.bar]
  · simp [v2.foo, v2.bar]
  · simp [v1.foo, v1.bar]
  · intro i
    simp [v1.foo, v1.bar, List.getElem?_enum]

/-- C9 witness: on the sample input of `run()` (which contains an empty
string) the output is the full enumeration. -/
theorem foo_never_filters_witness :
    v1.foo ["string_0", "string_1", "string_2", ""] =
      [(0, "string_0"), (1, "string_1"), (2, "string_2"), (3, "")] := by
  have h := foo_never_filters ["string_0", "string_1", "string_2", ""]
  rw [h.1]
  rfl

/-- C6: no filtering by level is implemented.  Whatever the level, the call's
outcome is the same; the `Console` branch always appends the rendered record
to standard output; and the `FileSystem` branch, whenever the I/O succeeds,
always appends the rendered record to the file.  The level only enters
through the rendered tag inside `log_message`. -/
theorem no_level_filtering (log_type : LogType) (lv lv2 : LogLevel)
    (value : String) (env : FsEnv) (w : World) :
    ((write_to_log log_type lv value env w).1 = Outcome.ok () ↔
      (write_to_log log_type lv2 value env w).1 = Outcome.ok ()) ∧
    ((write_to_log LogType.Console lv value env w).2.console =
      w.console ++ [log_message lv value]) ∧
    (env.openResult = none → env.writeResult = none →
      (write_to_log LogType.FileSystem lv value env w).2.file =
        some (w.file.getD "" ++ log_message lv value ++ "\n")) := by
  refine ⟨?_, rfl, ?_⟩
  · rcases env with ⟨op, wr⟩
    cases log_type <;> cases op <;> cases wr <;> simp [write_to_log]
  · intro ho hw
    simp [write_to_log, ho, hw]

/-- C6 witness: with `Debug` level and a healthy environment, the message is
emitted to the file even at the lowest severity. -/
theorem no_level_filtering_witness :
    (write_to_log LogType.FileSystem LogLevel.Debug "x" ⟨none, none⟩
        ⟨none, []⟩).2.file = some "[DEBUG] x\n" := by
  have h := no_level_filtering LogType.FileSystem LogLevel.Debug LogLevel.Info
    "x" ⟨none, none⟩ ⟨none, []⟩
  have h2 := h.2.2 rfl rfl
  simpa [log_message, LogLevel.display] using h2

/-- C8: when the fixed-name log file does not exist and the I/O succeeds, the
`FileSystem` branch creates the file and writes the record into it, returning
`Ok(())`. -/
theorem filesystem_creates_missing_file (lv : LogLevel) (value : String)
    (env : FsEnv) (w : World) (hf : w.file = none)
    (ho : env.openResult = none) (hw : env.writeResult = none) :
    write_to_log LogType.FileSystem lv value env w =
      (Outcome.ok (), { w with file := some (log_message lv value ++ "\n") }) := by
  simp [write_to_log, ho, hw, hf]

/-- C8 witness: logging `Info "Test log message"` to an absent file creates
it with exactly the one record. -/
theorem filesystem_creates_missing_file_witness :
    write_to_log LogType.FileSystem LogLevel.Info "Test log message"
        ⟨none, none⟩ ⟨none, []⟩ =
      (Outcome.ok (), ⟨some "[INFO] Test log message\n", []⟩) := by
  have h := filesystem_creates_missing_file LogLevel.Info "Test log message"
    ⟨none, none⟩ ⟨none, []⟩ rfl rfl rfl
  simpa [log_message, LogLevel.display] using h

/-- C10: no call ever returns the third variant `LogError::LogError`, and a
`FileOpenError` result leaves the log file untouched. -/
theorem no_logerror_variant_and_open_failure_preserves_file
    (log_type : LogType) (lv : LogLevel) (value : String)
    (env : FsEnv) (w : World) :
    (∀ s : String,
      (write_to_log log_type lv value env w).1 ≠
        Outcome.err (LogError.LogError s)) ∧
    (∀ s : String,
      (write_to_log log_type lv value env w).1 =
        Outcome.err (LogError.FileOpenError s) →
      (write_to_log log_type lv value env w).2.file = w.file) := by
  rcases env with ⟨op, wr⟩
  cases log_type <;> cases op <;> cases wr <;> simp [write_to_log]

/-- C1 counterexample: the claim quantifies over every message, but for the
message containing a newline, `"a" ++ "\n" ++ "b"`, the successful file write
starting from an absent file appends two lines, not one, and the appended
text is not the single line `"[INFO] a\nb"`.  So it is false that the file's
line list grows by exactly the one element `log_message Info "a\nb"`. -/
theorem filesystem_one_line_counterexample :
    ¬ (fileLines ((write_to_log LogType.FileSystem LogLevel.Info "a\nb"
          ⟨none, none⟩ ⟨none, []⟩).2.file.getD "") =
        fileLines ((none : Option String).getD "") ++
          [log_message LogLevel.Info "a\nb"]) := by
  decide

/-- C1 (amended): for every level and every message that contains no newline
character, if the log file holds only complete lines (it is absent, empty, or
newline-terminated) and the open and write succeed, then the call returns
`Ok(())` and appends exactly one line to the file, equal to
`"[LEVEL] message"`. -/
theorem filesystem_appends_one_line (lv : LogLevel) (value : String)
    (env : FsEnv) (w : World)
    (hv : Char.ofNat 10 ∉ value.data)
    (hls : LineStructured w.file)
    (ho : env.openResult = none) (hwr : env.writeResult = none) :
    (write_to_log LogType.FileSystem lv value env w).1 = Outcome.ok () ∧
    fileLines ((write_to_log LogType.FileSystem lv value env w).2.file.getD "")
      = fileLines (w.file.getD "") ++ [log_message lv value] := by
  have hfile : (write_to_log LogType.FileSystem lv value env w).2.file =
      some (w.file.getD "" ++ log_message lv value ++ "\n") := by
    simp [write_to_log, ho, hwr]
  refine ⟨by simp [write_to_log, ho, hwr], ?_⟩
  rw [hfile, Option.getD_some]
  apply fileLines_append_line
  · have hdisp : Char.ofNat 10 ∉ ("[" ++ lv.display ++ "] ").data := by
      cases lv <;> decide
    intro hmem
    rw [log_message, String.data_append, List.mem_append] at hmem
    rcases hmem with hmem | hmem
    · exact hdisp hmem
    · exact hv hmem
  · exact hls

/-- C1 witness: logging `Info "Test log message"` to the absent log file with
healthy I/O leaves the file with last line `"[INFO] Test log message"`. -/
theorem filesystem_appends_one_line_witness :
    (fileLines ((write_to_log LogType.FileSystem LogLevel.Info
        "Test log message" ⟨none, none⟩ ⟨none, []⟩).2.file.getD "")).getLast?
      = some "[INFO] Test log message" := by
  have h := filesystem_appends_one_line LogLevel.Info "Test log message"
    ⟨none, none⟩ ⟨none, []⟩ (by decide) (Or.inl rfl) rfl rfl
  rw [h.2]
  rfl

/-- C10 witness: a failed open (description "denied") leaves an existing
file's contents unchanged, and the result is not the `LogError` variant. -/
theorem no_logerror_variant_witness :
    (write_to_log LogType.FileSystem LogLevel.Warn "m" ⟨some "denied", none⟩
        ⟨some "old\n", []⟩).2.file = some "old\n" ∧
    (write_to_log LogType.FileSystem LogLevel.Warn "m" ⟨some "denied", none⟩
        ⟨some "old\n", []⟩).1 ≠ Outcome.err (LogError.LogError "denied") := by
  have h := no_logerror_variant_and_open_failure_preserves_file
    LogType.FileSystem LogLevel.Warn "m" ⟨some "denied", none⟩ ⟨some "old\n", []⟩
  exact ⟨h.2 "denied" rfl, h.1 "denied"⟩

end EnxLog
